import Mathlib

/-!
Verification of the LinkedIn crawler core (src/src/crawler/linkedin_crawler.py).

This file is a shallow embedding of the crawl-orchestration pipeline of the
`LinkedInCrawler` class and proofs about it.

Modelling conventions:
* A job record (a Python dict flowing through the pipeline) becomes the
  structure `JobRecord`.  The `job_description` key, absent until the detail
  stage runs, is an `Option String`; the variable set of extracted criteria
  fields becomes the association list `extras`.
* Browser interaction is modelled by *outcome* parameters: each point where
  the code talks to the page (a wait that may time out, a navigation that may
  raise, an element extraction that may fail) becomes a value of an outcome
  type, and the embedded function is the control flow of the source over those
  outcomes.  Timing (`random_delay`, `time.sleep`) has no data effect and is
  modelled only where the spec talks about it (the inter-combination delay
  counter of `run`).
* Logging and screenshots become an explicit event trace where a claim
  mentions them.
* Python exceptions become `Except String` values; a caught exception `e`
  contributes `str(e)` as its message.
-/

set_option autoImplicit false
set_option maxRecDepth 100000

namespace LinkedinCrawler

/-- A job record.  Mirrors the dict built at
`linkedin_crawler.py:365-374` (listing stage), plus the keys added by the
detail stage (`job_description` at line 459/470/483, criteria fields merged
by `job_data.update(job_details)` at line 460, kept here as `extras`). -/
structure JobRecord where
  job_id : String
  job_title : String
  company : String
  location : String
  job_link : String
  search_keyword : String
  search_location : String
  crawl_time : String
  /-- Holds `none` while the `job_description` key is absent (before the detail
  stage); `some d` once the key is set. -/
  job_description : Option String := none
  /-- The variable criteria fields (`job_type`, seniority, ...) merged in by
  the detail stage; the key set is not fixed. -/
  extras : List (String × String) := []
  deriving DecidableEq

/-- Python `str.strip()` on a character list: drop leading and trailing
whitespace. -/
def pyStripChars (l : List Char) : List Char :=
  ((l.dropWhile Char.isWhitespace).reverse.dropWhile Char.isWhitespace).reverse

/-- Python `str.strip()`. -/
def pyStrip (s : String) : String :=
  String.mk (pyStripChars s.data)

/-! ## Detail stage: `scrape_job_details` (lines 397-486)

For each input record the loop body either
* succeeds: the wait for `.jobs-description__content` returns an element
  whose text is stripped into `job_description`, and best-effort criteria
  extraction yields the key/value pairs merged by `update` (lines 420-462);
* times out (`TimeoutException`, lines 464-471): a copy of the record gets
  `job_description = "[抓取失败]"`;
* raises any other exception (lines 477-484): a copy of the record gets
  `job_description = "[抓取错误: " + str(e) + "]"`.

Each branch appends exactly one record to `detailed_jobs`. -/

/-- The outcome of one detail-page visit. `success` carries the raw text of
the description element (stripped by the code) and the extracted criteria
pairs; `timeout` is a `TimeoutException` from the wait; `error` is any other
exception, carrying `str(e)`. -/
inductive DetailOutcome where
  | success (rawText : String) (criteria : List (String × String))
  | timeout
  | error (msg : String)
  deriving DecidableEq

/-- The record appended for one input record, by outcome (loop body of
`scrape_job_details`, lines 409-484). -/
def detailStep (job : JobRecord) : DetailOutcome → JobRecord
  | .success rawText criteria =>
      { job with job_description := some (pyStrip rawText),
                 extras := job.extras ++ criteria }
  | .timeout =>
      { job with job_description := some "[抓取失败]" }
  | .error msg =>
      { job with job_description := some ("[抓取错误: " ++ msg ++ "]") }

/-- Model of `scrape_job_details` (lines 397-486): each input record is paired with
the outcome of its detail-page visit; every branch of the loop body appends
exactly one output record. -/
def scrape_job_details (jobs : List (JobRecord × DetailOutcome)) : List JobRecord :=
  jobs.map (fun p => detailStep p.1 p.2)

/-! ## Deduplication step of `run` (lines 630-635)

```
unique_jobs = {}
for job in all_job_listings:
    if job["job_id"] not in unique_jobs:
        unique_jobs[job["job_id"]] = job
unique_job_listings = list(unique_jobs.values())
```

A Python `dict` preserves insertion order, and a key is inserted only the
first time it is seen, so `list(unique_jobs.values())` is exactly the
subsequence of `all_job_listings` made of the first record of each
`job_id`.  `dedupAux l seen` is that loop with `seen` the key set of
`unique_jobs`. -/

def dedupAux : List JobRecord → List String → List JobRecord
  | [], _ => []
  | j :: rest, seen =>
      if j.job_id ∈ seen then dedupAux rest seen
      else j :: dedupAux rest (j.job_id :: seen)

/-- The deduplication step of the orchestrator (lines 630-635). -/
def dedupListings (l : List JobRecord) : List JobRecord :=
  dedupAux l []

/-! ## `construct_search_url` (lines 271-305) -/

/-- Per-character body of keyword.replace(" ", "%20") at line 284: since the
pattern is the single space character, the Python replace substitutes each
occurrence independently. -/
def encChars : List Char → List Char
  | [] => []
  | c :: cs => if c = ' ' then '%' :: '2' :: '0' :: encChars cs else c :: encChars cs

/-- Model of s.replace(" ", "%20") (lines 284-285). -/
def encodeSpaces (s : String) : String :=
  String.mk (encChars s.data)

/-- Python "&".join(params) (line 303). -/
def ampJoin : List String → String
  | [] => ""
  | [p] => p
  | p :: rest => p ++ "&" ++ ampJoin rest

/-- Model of `construct_search_url(keyword, location, page)` (lines 271-305). -/
def construct_search_url (keyword location : String) (page : Int) : String :=
  let keyword_encoded := encodeSpaces keyword
  let location_encoded := encodeSpaces location
  let start := (page - 1) * 25
  let base_url := "https://www.linkedin.com/jobs/search/"
  let params := [
    "keywords=" ++ keyword_encoded,
    "location=" ++ location_encoded,
    "f_TPR=r86400",
    "geoId=92000000",
    "start=" ++ toString start
  ]
  base_url ++ "?" ++ ampJoin params

/-- Asserts that `pat` occurs as a contiguous substring of `s`. -/
def strContains (s pat : String) : Prop :=
  pat.data <:+: s.data

instance strContainsDecidable (s pat : String) : Decidable (strContains s pat) :=
  inferInstanceAs (Decidable (pat.data <:+: s.data))

/-! ## Listing stage: `scrape_job_listings` (lines 307-395)

The whole page loop (lines 322-389) sits inside one `try` whose handler
(lines 391-394) logs an error, takes a screenshot and falls through to
`return job_listings`: an exception outside the inner handlers (e.g. the
`driver.get(search_url)` navigation at line 327) abandons the remaining
pages and returns what was accumulated.  Inside the loop, the wait for
`.jobs-search__results-list` has its own `except TimeoutException` handler
(lines 382-385): warn, screenshot `timeout_page_{page}`, `continue`.  Each
result item is extracted under a per-item `try` (lines 345-380): on failure
the item is dropped with a warning. -/

/-- Outcome of extracting one `li` result item (lines 345-380): `ok` when
the link/title/company/location extraction succeeded and built a record,
`err` (carrying `str(e)`) when it raised and the item was dropped. -/
inductive ItemOutcome where
  | ok (r : JobRecord)
  | err (msg : String)
  deriving DecidableEq

/-- Outcome of one listing page:
* `navError` — an exception outside the inner handlers (e.g. navigation at
  line 327), caught by the function-level handler at line 391;
* `timeout` — `TimeoutException` from the wait at lines 337-339;
* `loaded items` — the results container appeared and held these items. -/
inductive PageOutcome where
  | navError (msg : String)
  | timeout
  | loaded (items : List ItemOutcome)
  deriving DecidableEq

/-- Observable side events of the listing stage (log lines and diagnostic
screenshots). -/
inductive Event where
  | warnItem (msg : String)
  | warnTimeout (page : Nat)
  | screenshot (name : String)
  | errorLog (msg : String)
  deriving DecidableEq

/-- Records appended for the items of one loaded page (lines 345-376):
successful items in order, failed items dropped. -/
def okRecords (items : List ItemOutcome) : List JobRecord :=
  items.filterMap (fun it => match it with | .ok r => some r | .err _ => none)

/-- Warnings logged for the failed items of one loaded page (line 379). -/
def itemWarnings (items : List ItemOutcome) : List Event :=
  items.filterMap (fun it => match it with | .ok _ => none | .err m => some (Event.warnItem m))

/-- The page loop of `scrape_job_listings` (lines 322-389), pages numbered
from `page`; returns the accumulated records and the event trace.  A
`navError` page reaches the function-level handler (lines 391-394) and
stops the loop; a `timeout` page warns, screenshots and continues. -/
def listPages : Nat → List PageOutcome → List JobRecord × List Event
  | _, [] => ([], [])
  | page, o :: rest =>
      match o with
      | .navError msg =>
          ([], [Event.errorLog msg, Event.screenshot "job_listing_error"])
      | .timeout =>
          let r := listPages (page + 1) rest
          (r.1, Event.warnTimeout page :: Event.screenshot ("timeout_page_" ++ toString page) :: r.2)
      | .loaded items =>
          let r := listPages (page + 1) rest
          (okRecords items ++ r.1, itemWarnings items ++ r.2)

/-- Model of `scrape_job_listings` over the outcomes of its `pages` pages (the list
has one entry per page the loop would visit, starting at page 1). -/
def scrape_job_listings (outcomes : List PageOutcome) : List JobRecord × List Event :=
  listPages 1 outcomes

/-! ## Login: `login` (lines 186-247)

`load_cookies` (lines 128-168) and `is_logged_in` (lines 249-269) catch all
their own exceptions and return a boolean, so they are modelled by boolean
outcome fields.  The credential branch (lines 202-244) sits in a `try`
whose handler returns `False`; inside it, an empty email or password
returns `False` before any page interaction. -/

/-- The environment `login` runs against: the results the page interactions
would produce. -/
structure LoginEnv where
  /-- Result of `load_cookies()` (line 194). -/
  cookiesLoaded : Bool
  /-- Result of `is_logged_in()` after cookie load (line 196). -/
  loggedInAfterCookies : Bool
  /-- Field use_credentials of the credentials config section (line 201). -/
  useCredentials : Bool
  /-- Field email of the credentials config section (line 203). -/
  email : String
  /-- Field password of the credentials config section (line 204). -/
  password : String
  /-- Holds `some (str e)` when the credential flow (lines 210-239) raises,
  caught at line 241. -/
  credFlowError : Option String
  /-- Result of `is_logged_in()` after submitting credentials (line 230). -/
  loggedInAfterCreds : Bool
  deriving DecidableEq

/-- Model of `login()` (lines 186-247).  Total: every branch of the source returns a
boolean and every exception inside is caught, so the model never fails. -/
def login (env : LoginEnv) : Bool :=
  if env.cookiesLoaded && env.loggedInAfterCookies then
    true
  else if env.useCredentials then
    if env.email = "" || env.password = "" then
      false
    else
      match env.credFlowError with
      | some _ => false
      | none => if env.loggedInAfterCreds then true else false
  else
    false

/-! ## Orchestrator: `run` (lines 590-654)

```
try:
    setup_driver(); login()
    for keyword in keywords:
        for location in locations:
            job_listings = scrape_job_listings(keyword, location, pages_per_search)
            all_job_listings.extend(job_listings)
            if keyword != keywords[-1] or location != locations[-1]:
                random_delay(10, 15)
    unique_job_listings = dedup(all_job_listings)
    detailed_jobs = scrape_job_details(unique_job_listings)
    return detailed_jobs
except Exception as e:
    logger.error(...); raise
finally:
    if self.driver: self.driver.quit()
```

In the embedding the only in-model raiser is `setup_driver` (line 126
re-raises; every other stage catches its own exceptions), but the
except and finally structure is modelled as written: the outcome of the body is
an `Except` that the handler re-raises unchanged, and the `finally` block
quits the driver exactly when `self.driver` was assigned. -/

/-- Outcome of `setup_driver()` (lines 71-126): `failBeforeDriver` when
`uc.Chrome` itself raised (line 106; `self.driver` still `None`),
`failAfterDriver` when a later setup step raised after the assignment. -/
inductive SetupOutcome where
  | ok
  | failBeforeDriver (msg : String)
  | failAfterDriver (msg : String)
  deriving DecidableEq

/-- The environment a `run()` call executes against. -/
structure RunEnv where
  setup : SetupOutcome
  loginEnv : LoginEnv
  /-- Field keywords of the search config section (line 605). -/
  keywords : List String
  /-- Field locations of the search config section (line 606). -/
  locations : List String
  /-- Page outcomes of `scrape_job_listings(keyword, location,
  pages_per_search)` for each pair; the list length is the number of pages
  the loop visits (`pages_per_search`, line 607). -/
  pageOutcomesFor : String → String → List PageOutcome
  /-- Detail-page outcome for each record passed to `scrape_job_details`. -/
  detailFor : JobRecord → DetailOutcome

/-- Listing records produced for one `(keyword, location)` pair. -/
def listingsFor (env : RunEnv) (k l : String) : List JobRecord :=
  (scrape_job_listings (env.pageOutcomesFor k l)).1

/-- Inner loop of the cross-product search (lines 613-625) for a fixed
keyword `k`: accumulate listings and count the inter-combination delays
performed by `if keyword != keywords[-1] or location != locations[-1]`
(line 624). -/
def comboInner (listFor : String → String → List JobRecord) (lastK lastL k : String) :
    List String → List JobRecord × Nat
  | [] => ([], 0)
  | l :: rest =>
      let jobs := listFor k l
      let r := comboInner listFor lastK lastL k rest
      let d : Nat := if k ≠ lastK ∨ l ≠ lastL then 1 else 0
      (jobs ++ r.1, d + r.2)

/-- Outer loop of the cross-product search (lines 612-625). -/
def comboOuter (listFor : String → String → List JobRecord) (lastK lastL : String)
    (locations : List String) : List String → List JobRecord × Nat
  | [] => ([], 0)
  | k :: rest =>
      let r1 := comboInner listFor lastK lastL k locations
      let r2 := comboOuter listFor lastK lastL locations rest
      (r1.1 ++ r2.1, r1.2 + r2.2)

/-- The combined listing list and inter-combination delay count of the
search loop.  `keywords[-1]` / `locations[-1]` are only evaluated inside
the loops, hence only on nonempty lists; `getLastD ""` agrees with them
there. -/
def searchCross (env : RunEnv) : List JobRecord × Nat :=
  comboOuter (listingsFor env) (env.keywords.getLastD "") (env.locations.getLastD "")
    env.locations env.keywords

/-- The `try` body of `run()` (lines 597-644): orchestration steps and
the delay count it performs. -/
def runBody (env : RunEnv) : Except String (List JobRecord) × Nat :=
  match env.setup with
  | .failBeforeDriver e => (Except.error e, 0)
  | .failAfterDriver e => (Except.error e, 0)
  | .ok =>
      let _loggedIn := login env.loginEnv
      let acc := searchCross env
      let uniq := dedupListings acc.1
      let detailed := scrape_job_details (uniq.map (fun r => (r, env.detailFor r)))
      (Except.ok detailed, acc.2)

/-- Whether `self.driver` was assigned (the `finally` guard at line 652). -/
def driverCreated (env : RunEnv) : Bool :=
  match env.setup with
  | .failBeforeDriver _ => false
  | _ => true

/-- The observable outcome of `run()`. -/
structure RunResult where
  /-- Normal return value, or the re-raised exception (lines 646-648). -/
  result : Except String (List JobRecord)
  /-- Whether the `finally` block called `self.driver.quit()` (650-653). -/
  driverQuit : Bool
  /-- Number of inter-combination delays performed (lines 624-625). -/
  interComboDelays : Nat

/-- Model of run() (lines 590-654): the outcome of the body passes through the
`except`-and-reraise handler unchanged, and the `finally` block quits the
driver exactly when it was created. -/
def run (env : RunEnv) : RunResult :=
  { result := (runBody env).1
    driverQuit := driverCreated env
    interComboDelays := (runBody env).2 }

/-! Shared concrete data for witnesses and counterexamples. -/

/-- A concrete listing record. -/
def sampleJob : JobRecord :=
  { job_id := "3991234567", job_title := "Data Engineer", company := "Acme",
    location := "United States",
    job_link := "https://www.linkedin.com/jobs/view/3991234567/",
    search_keyword := "Data Engineer", search_location := "United States",
    crawl_time := "2025-01-01 00:00:00" }

/-- A second concrete listing record, same `job_id` as `sampleJob` but a
different title (a duplicate found on a later page). -/
def sampleJobDup : JobRecord :=
  { sampleJob with job_title := "Senior Data Engineer", search_keyword := "Python" }

/-- A third concrete listing record with a distinct `job_id`. -/
def sampleJobB : JobRecord :=
  { sampleJob with
      job_id := "4000000001"
      job_link := "https://www.linkedin.com/jobs/view/4000000001/" }

/-- Whether a detail-page visit failed (took one of the two handler paths,
lines 464-471 or 477-484). -/
def DetailOutcome.failed : DetailOutcome → Bool
  | .success _ _ => false
  | .timeout => true
  | .error _ => true

/-- The common prefix of both failure-marker strings of the detail stage
(lines 470 and 483). -/
def failureMarkerPrefix : String := "[抓取"

/-! Claim C2. -/

/-- C2: for every input list, and for every combination of per-item outcomes
of the detail fetch (success, timeout, any other exception),
`scrape_job_details` returns exactly as many records as it was given — each
input record yields exactly one output record, never dropped. -/
theorem detail_stage_preserves_length (jobs : List (JobRecord × DetailOutcome)) :
    (scrape_job_details jobs).length = jobs.length := by
  simp [scrape_job_details]

/-! Claim C3. -/

/-- C3 counterexample: the claim also asserts that `job_description` is
never the empty string anywhere in the output, but a successful fetch whose
description element text strips to the empty string (line 426 has no
non-emptiness guard) produces an output record with `job_description`
equal to `some ""`. -/
theorem detail_empty_description_cex :
    ¬ (∀ r ∈ scrape_job_details [(sampleJob, DetailOutcome.success "" [])],
        r.job_description ≠ some "") := by
  decide

/-- C3 (amended): every output record whose detail fetch failed carries a
non-empty `job_description` containing the literal failure marker (with the
exception message embedded in the non-timeout case); the `job_description`
key is present on every output record; only successfully fetched records
can carry an empty description (the code copies the stripped page text
verbatim).  The second conjunct ties the per-record statement to
`scrape_job_details` positionally. -/
theorem detail_failure_marker_spec :
    (∀ (job : JobRecord) (o : DetailOutcome),
      ((detailStep job o).job_description.isSome = true) ∧
      (o = DetailOutcome.timeout →
        (detailStep job o).job_description = some "[抓取失败]") ∧
      (∀ msg, o = DetailOutcome.error msg →
        (detailStep job o).job_description = some ("[抓取错误: " ++ msg ++ "]") ∧
        strContains ("[抓取错误: " ++ msg ++ "]") msg) ∧
      (o.failed = true → ∀ d, (detailStep job o).job_description = some d →
        d ≠ "" ∧ strContains d failureMarkerPrefix)) ∧
    (∀ (jobs : List (JobRecord × DetailOutcome)) (i : Nat) (h : i < jobs.length),
      (scrape_job_details jobs).get? i =
        some (detailStep (jobs.get ⟨i, h⟩).1 (jobs.get ⟨i, h⟩).2)) := by
  constructor
  · intro job o
    refine ⟨?_, ?_, ?_, ?_⟩
    · cases o <;> simp [detailStep]
    · intro ho; subst ho; rfl
    · intro msg ho; subst ho
      refine ⟨rfl, ⟨"[抓取错误: ".data, "]".data, rfl⟩⟩
    · intro hf d hd
      cases o with
      | success rawText criteria => simp [DetailOutcome.failed] at hf
      | timeout =>
          simp [detailStep] at hd
          subst hd
          exact ⟨by decide, by decide⟩
      | error msg =>
          simp [detailStep] at hd
          subst hd
          have hpre : strContains ("[抓取错误: " ++ msg ++ "]") failureMarkerPrefix :=
            ⟨[], ("错误: " ++ msg ++ "]").data, rfl⟩
          refine ⟨?_, hpre⟩
          intro hcontra
          have hlen := List.IsInfix.length_le hpre
          rw [hcontra] at hlen
          simp [failureMarkerPrefix] at hlen
  · intro jobs i h
    have h2 : i < (scrape_job_details jobs).length := by
      simpa [scrape_job_details] using h
    rw [List.get?_eq_get h2]
    simp [scrape_job_details]

/-- C3 witness: the amended statement applied at a timeout, an error with
message embedded, and a concrete call of `scrape_job_details`. -/
theorem detail_failure_marker_instance :
    (detailStep sampleJob DetailOutcome.timeout).job_description = some "[抓取失败]" ∧
    (detailStep sampleJob (DetailOutcome.error "net down")).job_description =
      some ("[抓取错误: " ++ "net down" ++ "]") ∧
    strContains ("[抓取错误: " ++ "net down" ++ "]") "net down" ∧
    (scrape_job_details [(sampleJob, DetailOutcome.timeout)]).get? 0 =
      some (detailStep sampleJob DetailOutcome.timeout) := by
  have h1 := detail_failure_marker_spec.1 sampleJob DetailOutcome.timeout
  have h2 := detail_failure_marker_spec.1 sampleJob (DetailOutcome.error "net down")
  have h3 := detail_failure_marker_spec.2 [(sampleJob, DetailOutcome.timeout)] 0 (by decide)
  exact ⟨h1.2.1 rfl, (h2.2.2.1 "net down" rfl).1, (h2.2.2.1 "net down" rfl).2,
    by simpa using h3⟩

/-! Claim C1: lemmas about the dedup loop, generalized over the `seen` key
set of the `unique_jobs` dict. -/

lemma dedupAux_sublist (l : List JobRecord) : ∀ seen, (dedupAux l seen).Sublist l := by
  induction l with
  | nil => intro seen; simp [dedupAux]
  | cons j rest ih =>
      intro seen
      simp only [dedupAux]
      split
      · exact List.Sublist.cons j (ih seen)
      · exact List.Sublist.cons₂ j (ih _)

lemma dedupAux_not_seen (l : List JobRecord) :
    ∀ seen r, r ∈ dedupAux l seen → r.job_id ∉ seen := by
  induction l with
  | nil => intro seen r hr; simp [dedupAux] at hr
  | cons j rest ih =>
      intro seen r hr
      simp only [dedupAux] at hr
      split at hr
      · exact ih seen r hr
      · rename_i hmem
        rcases List.mem_cons.mp hr with hr | hr
        · subst hr; exact hmem
        · intro hin
          exact ih _ r hr (List.mem_cons_of_mem _ hin)

lemma dedupAux_map_nodup (l : List JobRecord) :
    ∀ seen, ((dedupAux l seen).map JobRecord.job_id).Nodup := by
  induction l with
  | nil => intro seen; simp [dedupAux]
  | cons j rest ih =>
      intro seen
      simp only [dedupAux]
      split
      · exact ih seen
      · simp only [List.map_cons, List.nodup_cons]
        constructor
        · intro hmem2
          rcases List.mem_map.mp hmem2 with ⟨r, hr, hid⟩
          have hns := dedupAux_not_seen rest _ r hr
          rw [hid] at hns
          exact hns (List.mem_cons_self _ _)
        · exact ih _

lemma dedupAux_mem_map (l : List JobRecord) :
    ∀ seen (jid : String), jid ∉ seen →
      (jid ∈ l.map JobRecord.job_id ↔ jid ∈ (dedupAux l seen).map JobRecord.job_id) := by
  induction l with
  | nil => intro seen jid h; simp [dedupAux]
  | cons j rest ih =>
      intro seen jid h
      simp only [dedupAux, List.map_cons, List.mem_cons]
      split
      · rename_i hmem
        constructor
        · intro hcase
          rcases hcase with heq | hmem2
          · subst heq; exact absurd hmem h
          · exact (ih seen jid h).mp hmem2
        · intro hmem2
          exact Or.inr ((ih seen jid h).mpr hmem2)
      · simp only [List.map_cons, List.mem_cons]
        constructor
        · intro hcase
          rcases hcase with heq | hmem2
          · exact Or.inl heq
          · by_cases heq2 : jid = j.job_id
            · exact Or.inl heq2
            · have hnotin : jid ∉ j.job_id :: seen := by
                intro hx
                rcases List.mem_cons.mp hx with h1 | h1
                · exact heq2 h1
                · exact h h1
              exact Or.inr ((ih _ jid hnotin).mp hmem2)
        · intro hcase
          rcases hcase with heq | hmem2
          · exact Or.inl heq
          · have hnotin : jid ∉ j.job_id :: seen := by
              rcases List.mem_map.mp hmem2 with ⟨r, hr, hid⟩
              rw [← hid]
              exact dedupAux_not_seen rest _ r hr
            exact Or.inr ((ih _ jid hnotin).mpr hmem2)

lemma dedupAux_find (l : List JobRecord) :
    ∀ seen r, r ∈ dedupAux l seen →
      l.find? (fun j => j.job_id == r.job_id) = some r := by
  induction l with
  | nil => intro seen r hr; simp [dedupAux] at hr
  | cons j rest ih =>
      intro seen r hr
      simp only [dedupAux] at hr
      split at hr
      · rename_i hmem
        have hne : j.job_id ≠ r.job_id := by
          intro he
          have hns := dedupAux_not_seen rest seen r hr
          rw [← he] at hns
          exact hns hmem
        have hp : ((fun j2 : JobRecord => j2.job_id == r.job_id) j) = false := by
          simpa using hne
        rw [List.find?_cons_of_neg _ (by simp [hp]), ih seen r hr]
      · rcases List.mem_cons.mp hr with heq | hmem2
        · subst heq
          rw [List.find?_cons_of_pos _ (by simp)]
        · have hne : j.job_id ≠ r.job_id := by
            intro he
            have hns := dedupAux_not_seen rest _ r hmem2
            rw [← he] at hns
            exact hns (List.mem_cons_self _ _)
          have hp : ((fun j2 : JobRecord => j2.job_id == r.job_id) j) = false := by
            simpa using hne
          rw [List.find?_cons_of_neg _ (by simp [hp]), ih _ r hmem2]

/-- C1: the deduplication step of `run` returns a subsequence of the
combined listing list (so relative order of the retained records is
preserved), its `job_id` projection is duplicate-free, it retains a record
for exactly the set of `job_id` values of the input, and every retained
record is the first record of the input bearing its `job_id`
(first-occurrence-wins). -/
theorem dedup_retains_first_per_job_id (l : List JobRecord) :
    (dedupListings l).Sublist l ∧
    ((dedupListings l).map JobRecord.job_id).Nodup ∧
    (∀ jid : String,
      jid ∈ l.map JobRecord.job_id ↔ jid ∈ (dedupListings l).map JobRecord.job_id) ∧
    (∀ r ∈ dedupListings l, l.find? (fun j => j.job_id == r.job_id) = some r) :=
  ⟨dedupAux_sublist l [], dedupAux_map_nodup l [],
    fun jid => dedupAux_mem_map l [] jid (by simp),
    fun r hr => dedupAux_find l [] r hr⟩

/-- C1 witness: the dedup properties at a concrete combined list in which
`sampleJobDup` repeats the `job_id` of `sampleJob`. -/
theorem dedup_retains_first_instance :
    (dedupListings [sampleJob, sampleJobB, sampleJobDup]).Sublist
      [sampleJob, sampleJobB, sampleJobDup] ∧
    ((dedupListings [sampleJob, sampleJobB, sampleJobDup]).map JobRecord.job_id).Nodup ∧
    ("3991234567" ∈ ([sampleJob, sampleJobB, sampleJobDup].map JobRecord.job_id) ↔
      "3991234567" ∈ ((dedupListings [sampleJob, sampleJobB, sampleJobDup]).map JobRecord.job_id)) ∧
    [sampleJob, sampleJobB, sampleJobDup].find?
      (fun j => j.job_id == sampleJob.job_id) = some sampleJob := by
  obtain ⟨h1, h2, h3, h4⟩ := dedup_retains_first_per_job_id [sampleJob, sampleJobB, sampleJobDup]
  exact ⟨h1, h2, h3 "3991234567", h4 sampleJob (by decide)⟩

/-! Claims C6 and C9: the listing-page loop. -/

/-- Records a page contributes to the returned list: nothing on a timeout
(the page is skipped), the successfully extracted items on a loaded page. -/
def pageRecs : PageOutcome → List JobRecord
  | .navError _ => []
  | .timeout => []
  | .loaded items => okRecords items

/-- Whether a page outcome is an exception outside the inner handlers. -/
def isNavErr : PageOutcome → Bool
  | .navError _ => true
  | _ => false

lemma listPages_no_nav (outcomes : List PageOutcome) :
    ∀ n, (∀ o ∈ outcomes, isNavErr o = false) →
      (listPages n outcomes).1 = (outcomes.map pageRecs).flatten ∧
      (∀ i (hi : i < outcomes.length), outcomes.get ⟨i, hi⟩ = PageOutcome.timeout →
        Event.warnTimeout (n + i) ∈ (listPages n outcomes).2 ∧
        Event.screenshot ("timeout_page_" ++ toString (n + i)) ∈ (listPages n outcomes).2) := by
  induction outcomes with
  | nil =>
      intro n h
      constructor
      · simp [listPages]
      · intro i hi
        simp at hi
  | cons o rest ih =>
      intro n h
      have ho := h o (List.mem_cons_self _ _)
      have hrest : ∀ o2 ∈ rest, isNavErr o2 = false :=
        fun o2 h2 => h o2 (List.mem_cons_of_mem _ h2)
      cases o with
      | navError msg => simp [isNavErr] at ho
      | timeout =>
          obtain ⟨ih1, ih2⟩ := ih (n + 1) hrest
          constructor
          · simp [listPages, pageRecs, ih1]
          · intro i hi ht
            cases i with
            | zero =>
                constructor
                · simp [listPages]
                · simp [listPages]
            | succ i2 =>
                have hi2 : i2 < rest.length := by simpa using hi
                have ht2 : rest.get ⟨i2, hi2⟩ = PageOutcome.timeout := by simpa using ht
                obtain ⟨w1, w2⟩ := ih2 i2 hi2 ht2
                have harith : n + (i2 + 1) = (n + 1) + i2 := by omega
                rw [harith]
                constructor
                · simp only [listPages]
                  exact List.mem_cons_of_mem _ (List.mem_cons_of_mem _ w1)
                · simp only [listPages]
                  exact List.mem_cons_of_mem _ (List.mem_cons_of_mem _ w2)
      | loaded items =>
          obtain ⟨ih1, ih2⟩ := ih (n + 1) hrest
          constructor
          · simp [listPages, pageRecs, ih1]
          · intro i hi ht
            cases i with
            | zero => simp at ht
            | succ i2 =>
                have hi2 : i2 < rest.length := by simpa using hi
                have ht2 : rest.get ⟨i2, hi2⟩ = PageOutcome.timeout := by simpa using ht
                obtain ⟨w1, w2⟩ := ih2 i2 hi2 ht2
                have harith : n + (i2 + 1) = (n + 1) + i2 := by omega
                rw [harith]
                constructor
                · simp only [listPages]
                  exact List.mem_append_right _ w1
                · simp only [listPages]
                  exact List.mem_append_right _ w2

/-- C6: when no page raises outside the inner handlers, the listing loop
returns exactly the concatenation of the records of the pages that did not
time out (a timed-out page contributes nothing and the loop continues), and
every timed-out page `i+1` leaves a logged warning and a diagnostic
screenshot named after the page number in the event trace — so a timeout on
one page never aborts the scraping of the remaining pages. -/
theorem listing_timeout_skips_page (outcomes : List PageOutcome)
    (h : ∀ o ∈ outcomes, isNavErr o = false) :
    (scrape_job_listings outcomes).1 = (outcomes.map pageRecs).flatten ∧
    ∀ i (hi : i < outcomes.length), outcomes.get ⟨i, hi⟩ = PageOutcome.timeout →
      Event.warnTimeout (i + 1) ∈ (scrape_job_listings outcomes).2 ∧
      Event.screenshot ("timeout_page_" ++ toString (i + 1)) ∈
        (scrape_job_listings outcomes).2 := by
  simp only [scrape_job_listings]
  obtain ⟨h1, h2⟩ := listPages_no_nav outcomes 1 h
  refine ⟨h1, ?_⟩
  intro i hi ht
  have hw := h2 i hi ht
  rwa [Nat.add_comm 1 i] at hw

/-- C6 witness: a concrete run where page 1 times out and page 2 loads two
items, one of which fails item extraction. -/
theorem listing_timeout_skips_page_instance :
    (scrape_job_listings
        [PageOutcome.timeout,
         PageOutcome.loaded [ItemOutcome.ok sampleJob, ItemOutcome.err "stale element"]]).1 =
      (([PageOutcome.timeout,
         PageOutcome.loaded [ItemOutcome.ok sampleJob, ItemOutcome.err "stale element"]]).map
        pageRecs).flatten ∧
    Event.warnTimeout 1 ∈
      (scrape_job_listings
        [PageOutcome.timeout,
         PageOutcome.loaded [ItemOutcome.ok sampleJob, ItemOutcome.err "stale element"]]).2 ∧
    Event.screenshot ("timeout_page_" ++ toString 1) ∈
      (scrape_job_listings
        [PageOutcome.timeout,
         PageOutcome.loaded [ItemOutcome.ok sampleJob, ItemOutcome.err "stale element"]]).2 := by
  obtain ⟨h1, h2⟩ := listing_timeout_skips_page
    [PageOutcome.timeout,
     PageOutcome.loaded [ItemOutcome.ok sampleJob, ItemOutcome.err "stale element"]]
    (by decide)
  have h3 := h2 0 (by decide) rfl
  exact ⟨h1, h3.1, h3.2⟩

lemma listPages_nav_abort (pre : List PageOutcome) :
    ∀ n (msg : String) (post : List PageOutcome),
      (listPages n (pre ++ PageOutcome.navError msg :: post)).1 = (listPages n pre).1 ∧
      listPages n (pre ++ PageOutcome.navError msg :: post) =
        listPages n (pre ++ [PageOutcome.navError msg]) := by
  induction pre with
  | nil =>
      intro n msg post
      constructor
      · simp [listPages]
      · simp [listPages]
  | cons o pre2 ih =>
      intro n msg post
      cases o with
      | navError m2 =>
          constructor <;> simp [listPages]
      | timeout =>
          obtain ⟨ih1, ih2⟩ := ih (n + 1) msg post
          constructor
          · simp [listPages, ih1]
          · simp [listPages, ih2]
      | loaded items =>
          obtain ⟨ih1, ih2⟩ := ih (n + 1) msg post
          constructor
          · simp [listPages, ih1]
          · simp [listPages, ih2]

/-- C9: `scrape_job_listings` is a total function of its page outcomes (it
never propagates an exception: the model needs no error result), and when
an exception outside the per-item and per-page handlers occurs on some page
— e.g. a navigation failure — the remaining pages are abandoned (the result
does not depend on them at all) and the listings accumulated so far are
returned. -/
theorem listing_nav_error_returns_accumulated (pre : List PageOutcome) (msg : String)
    (post : List PageOutcome) :
    (scrape_job_listings (pre ++ PageOutcome.navError msg :: post)).1 =
      (scrape_job_listings pre).1 ∧
    scrape_job_listings (pre ++ PageOutcome.navError msg :: post) =
      scrape_job_listings (pre ++ [PageOutcome.navError msg]) := by
  simp only [scrape_job_listings]
  exact listPages_nav_abort pre 1 msg post

/-! Claims C7 and C4: login fallback and orchestrator cleanup. -/

/-- A login environment in which the cookie check fails and credentials are
disabled. -/
def anonLoginEnv : LoginEnv :=
  { cookiesLoaded := false, loggedInAfterCookies := false, useCredentials := false,
    email := "", password := "", credFlowError := none, loggedInAfterCreds := false }

/-- A concrete run environment: setup succeeds, two keywords, two
locations, every page loads one item, every detail fetch succeeds. -/
def sampleRunEnv : RunEnv :=
  { setup := SetupOutcome.ok, loginEnv := anonLoginEnv,
    keywords := ["Data Engineer", "Python"],
    locations := ["United States", "Canada"],
    pageOutcomesFor := fun _ _ => [PageOutcome.loaded [ItemOutcome.ok sampleJob]],
    detailFor := fun _ => DetailOutcome.success "We need a data engineer." [] }

/-- C7: if the cookie-based login check reports not-logged-in (cookie load
failed, or the post-cookie check failed) and credential login is disabled,
`login` returns false — and, the model being a total function (every
exception inside the source `login` is caught), it raises nothing; and
`run` never consults the outcome of `login` (line 602 discards it): its
result is unchanged under any replacement of the login environment. -/
theorem login_fallback_anonymous :
    (∀ le : LoginEnv, le.useCredentials = false →
      le.cookiesLoaded = false ∨ le.loggedInAfterCookies = false →
      login le = false) ∧
    (∀ (env : RunEnv) (le : LoginEnv), run { env with loginEnv := le } = run env) := by
  constructor
  · intro le hc hck
    unfold login
    rcases hck with h | h <;> simp [h, hc]
  · intro env le
    rfl

/-- C7 witness: the fallback at a concrete environment, and run-result
independence at a concrete run environment. -/
theorem login_fallback_anonymous_instance :
    login anonLoginEnv = false ∧
    run { sampleRunEnv with loginEnv := anonLoginEnv } = run sampleRunEnv :=
  ⟨login_fallback_anonymous.1 anonLoginEnv rfl (Or.inl rfl),
    login_fallback_anonymous.2 sampleRunEnv anonLoginEnv⟩

/-- C4: the `finally` block of `run` quits the driver whenever one was
created — on normal return and on every raising stage; an exception of the
body is re-raised to the caller unchanged (never swallowed), and on a
normal run the detail-enriched, deduplicated records are returned. -/
theorem run_cleanup_and_reraise (env : RunEnv) :
    (driverCreated env = true → (run env).driverQuit = true) ∧
    (∀ msg, env.setup = SetupOutcome.failBeforeDriver msg →
      (run env).result = Except.error msg) ∧
    (∀ msg, env.setup = SetupOutcome.failAfterDriver msg →
      (run env).result = Except.error msg ∧ (run env).driverQuit = true) ∧
    (env.setup = SetupOutcome.ok →
      (run env).driverQuit = true ∧
      (run env).result = Except.ok (scrape_job_details
        ((dedupListings (searchCross env).1).map (fun r => (r, env.detailFor r))))) := by
  refine ⟨?_, ?_, ?_, ?_⟩
  · intro h; exact h
  · intro msg h
    simp [run, runBody, h]
  · intro msg h
    constructor
    · simp [run, runBody, h]
    · simp [run, driverCreated, h]
  · intro h
    constructor
    · simp [run, driverCreated, h]
    · simp [run, runBody, h]

/-- C4 witness: a run whose setup raises after the driver was created still
quits the driver and re-raises the same exception; the normal run also
quits the driver. -/
theorem run_cleanup_and_reraise_instance :
    (run { sampleRunEnv with setup := SetupOutcome.failAfterDriver "invalid session id" }).result =
      Except.error "invalid session id" ∧
    (run { sampleRunEnv with setup := SetupOutcome.failAfterDriver "invalid session id" }).driverQuit = true ∧
    (run sampleRunEnv).driverQuit = true := by
  obtain ⟨a, b, c, d⟩ :=
    run_cleanup_and_reraise { sampleRunEnv with setup := SetupOutcome.failAfterDriver "invalid session id" }
  obtain ⟨e, f, g, hk⟩ := run_cleanup_and_reraise sampleRunEnv
  exact ⟨(c "invalid session id" rfl).1, (c "invalid session id" rfl).2, (hk rfl).1⟩

/-! Claim C8: the inter-combination delay count. -/

lemma comboInner_count (listFor : String → String → List JobRecord)
    (lastK lastL k : String) (locations : List String) :
    (comboInner listFor lastK lastL k locations).2 =
      locations.countP (fun l => decide (k ≠ lastK ∨ l ≠ lastL)) := by
  induction locations with
  | nil => rfl
  | cons l rest ih =>
      show (if k ≠ lastK ∨ l ≠ lastL then 1 else 0) +
          (comboInner listFor lastK lastL k rest).2 = _
      rw [ih, List.countP_cons]
      simp only [decide_eq_true_eq]
      split_ifs <;> omega

lemma countP_ne_eq (ls : List String) (x : String) :
    ls.countP (fun l => decide (l ≠ x)) = ls.length - ls.count x := by
  induction ls with
  | nil => simp
  | cons l rest ih =>
      simp only [List.countP_cons, List.count_cons, List.length_cons, ih]
      by_cases h : l = x
      · subst h
        simp
      · have hc := List.count_le_length x rest
        simp [h, Ne.symm h]
        omega

lemma comboInner_count_ne (listFor : String → String → List JobRecord)
    (lastK lastL k : String) (locations : List String) (h : k ≠ lastK) :
    (comboInner listFor lastK lastL k locations).2 = locations.length := by
  rw [comboInner_count]
  refine List.countP_eq_length.mpr ?_
  intro l hl
  simp [h]

lemma comboInner_count_eq (listFor : String → String → List JobRecord)
    (lastK lastL : String) (locations : List String)
    (hl : locations.count lastL = 1) :
    (comboInner listFor lastK lastL lastK locations).2 = locations.length - 1 := by
  rw [comboInner_count]
  have hfn : (fun l => decide (lastK ≠ lastK ∨ l ≠ lastL)) =
      (fun l : String => decide (l ≠ lastL)) := by
    funext l
    simp
  rw [hfn, countP_ne_eq, hl]

lemma comboOuter_count_allne (listFor : String → String → List JobRecord)
    (lastK lastL : String) (locations : List String) :
    ∀ ks : List String, (∀ k ∈ ks, k ≠ lastK) →
      (comboOuter listFor lastK lastL locations ks).2 = ks.length * locations.length := by
  intro ks
  induction ks with
  | nil => intro _; simp [comboOuter]
  | cons k rest ih =>
      intro h
      have hk := h k (List.mem_cons_self _ _)
      have hrest := fun k2 h2 => h k2 (List.mem_cons_of_mem _ h2)
      show (comboInner listFor lastK lastL k locations).2 +
          (comboOuter listFor lastK lastL locations rest).2 = _
      rw [comboInner_count_ne _ _ _ _ _ hk, ih hrest, List.length_cons]
      ring

lemma comboOuter_count_unique (listFor : String → String → List JobRecord)
    (lastK lastL : String) (locations : List String)
    (hlocc : locations.count lastL = 1) :
    ∀ ks : List String, ks.count lastK = 1 →
      (comboOuter listFor lastK lastL locations ks).2 =
        ks.length * locations.length - 1 := by
  have hLpos : 1 ≤ locations.length := by
    have hm : lastL ∈ locations := List.count_pos_iff.mp (by omega)
    exact List.length_pos_of_mem hm
  intro ks
  induction ks with
  | nil => intro h; simp at h
  | cons k rest ih =>
      intro h
      show (comboInner listFor lastK lastL k locations).2 +
          (comboOuter listFor lastK lastL locations rest).2 =
        (k :: rest).length * locations.length - 1
      by_cases hk : k = lastK
      · subst hk
        have hrest0 : rest.count k = 0 := by
          simp [List.count_cons] at h
          omega
        have hne : ∀ k2 ∈ rest, k2 ≠ k := by
          intro k2 h2 he
          rw [he] at h2
          have := List.count_pos_iff.mpr h2
          omega
        rw [comboInner_count_eq _ _ _ _ hlocc, comboOuter_count_allne _ _ _ _ rest hne,
          List.length_cons]
        have hmul : (rest.length + 1) * locations.length =
            rest.length * locations.length + locations.length := by ring
        omega
      · have hcnt : rest.count lastK = 1 := by
          have hkk : (k == lastK) = false := by
            simp [hk]
          rw [List.count_cons, hkk] at h
          simpa using h
        have hklen : 1 ≤ rest.length := by
          have hm : lastK ∈ rest := List.count_pos_iff.mp (by omega)
          exact List.length_pos_of_mem hm
        rw [comboInner_count_ne _ _ _ _ _ hk, ih hcnt, List.length_cons]
        have hmul : (rest.length + 1) * locations.length =
            rest.length * locations.length + locations.length := by ring
        have hpos : 1 ≤ rest.length * locations.length :=
          Nat.mul_pos (by omega) (by omega)
        omega

/-- The run environment of the C8 counterexample: the last keyword value
occurs twice. -/
def dupKeywordEnv : RunEnv :=
  { sampleRunEnv with
      keywords := ["Python", "Python"]
      locations := ["United States"] }

/-- C8 counterexample: the delay condition at line 624 compares values,
not loop positions — with keywords ["Python", "Python"] and one location,
both iterations have keyword equal to keywords[-1] and location equal to
locations[-1], so the run performs 0 inter-combination delays while the
claim demands len(keywords)*len(locations) - 1 = 1. -/
theorem inter_delay_count_cex :
    (run dupKeywordEnv).interComboDelays = 0 ∧
    dupKeywordEnv.keywords.length * dupKeywordEnv.locations.length - 1 = 1 := by
  decide

/-- C8 (amended): when the last keyword value occurs exactly once in the
keywords list and the last location value occurs exactly once in the
locations list, `run` performs exactly len(keywords)*len(locations) - 1
inter-combination delays (one after each cross-product pair except the
last).  In general the delay is skipped for every pair whose keyword equals
keywords[-1] and whose location equals locations[-1], not only for the
positionally last pair. -/
theorem inter_delay_count_spec (env : RunEnv)
    (hs : env.setup = SetupOutcome.ok)
    (hk : env.keywords.count (env.keywords.getLastD "") = 1)
    (hl : env.locations.count (env.locations.getLastD "") = 1) :
    (run env).interComboDelays = env.keywords.length * env.locations.length - 1 := by
  have hrun : (run env).interComboDelays = (searchCross env).2 := by
    simp [run, runBody, hs]
  rw [hrun]
  exact comboOuter_count_unique (listingsFor env) _ _ env.locations hl env.keywords hk

/-- C8 witness: the amended count at the concrete environment with two
distinct keywords and two distinct locations — three delays. -/
theorem inter_delay_count_instance :
    (run sampleRunEnv).interComboDelays =
      sampleRunEnv.keywords.length * sampleRunEnv.locations.length - 1 ∧
    sampleRunEnv.keywords.length * sampleRunEnv.locations.length - 1 = 3 :=
  ⟨inter_delay_count_spec sampleRunEnv rfl (by decide) (by decide), by decide⟩

/-! Claims C5 and C10: URL construction. -/

lemma url_shape (k l : String) (p : Int) :
    (construct_search_url k l p).data =
      "https://www.linkedin.com/jobs/search/?".data ++
        ("keywords=".data ++ ((encodeSpaces k).data ++
          ("&".data ++ ("location=".data ++ ((encodeSpaces l).data ++
            ("&".data ++ ("f_TPR=r86400".data ++
              ("&".data ++ ("geoId=92000000".data ++
                ("&".data ++ ("start=".data ++
                  (toString ((p - 1) * 25)).data))))))))))) := by
  simp only [construct_search_url, ampJoin]
  simp only [String.data_append, List.append_assoc]
  rfl

/-- C5: `construct_search_url` is a pure function of (keyword, location,
page).  Every URL it returns contains the fixed recency filter
f_TPR=r86400, the worldwide geography geoId=92000000 and the offset
start=(page-1)*25; the concrete example URL for ("Data Engineer",
"United States", 3) contains keywords=Data%20Engineer,
location=United%20States and start=50 — spaces encoded as the literal
%20. -/
theorem construct_search_url_spec :
    (∀ (k l : String) (p : Int),
      strContains (construct_search_url k l p) "f_TPR=r86400" ∧
      strContains (construct_search_url k l p) "geoId=92000000" ∧
      strContains (construct_search_url k l p) ("start=" ++ toString ((p - 1) * 25))) ∧
    strContains (construct_search_url "Data Engineer" "United States" 3)
      "keywords=Data%20Engineer" ∧
    strContains (construct_search_url "Data Engineer" "United States" 3)
      "location=United%20States" ∧
    strContains (construct_search_url "Data Engineer" "United States" 3) "start=50" := by
  refine ⟨?_, by decide, by decide, by decide⟩
  intro k l p
  refine ⟨?_, ?_, ?_⟩
  · show "f_TPR=r86400".data <:+: (construct_search_url k l p).data
    refine ⟨"https://www.linkedin.com/jobs/search/?".data ++
        ("keywords=".data ++ ((encodeSpaces k).data ++
          ("&".data ++ ("location=".data ++ ((encodeSpaces l).data ++ "&".data))))),
      "&".data ++ ("geoId=92000000".data ++
        ("&".data ++ ("start=".data ++ (toString ((p - 1) * 25)).data))), ?_⟩
    rw [url_shape]
    simp [List.append_assoc]
  · show "geoId=92000000".data <:+: (construct_search_url k l p).data
    refine ⟨"https://www.linkedin.com/jobs/search/?".data ++
        ("keywords=".data ++ ((encodeSpaces k).data ++
          ("&".data ++ ("location=".data ++ ((encodeSpaces l).data ++
            ("&".data ++ ("f_TPR=r86400".data ++ "&".data))))))),
      "&".data ++ ("start=".data ++ (toString ((p - 1) * 25)).data), ?_⟩
    rw [url_shape]
    simp [List.append_assoc]
  · show ("start=" ++ toString ((p - 1) * 25)).data <:+: (construct_search_url k l p).data
    refine ⟨"https://www.linkedin.com/jobs/search/?".data ++
        ("keywords=".data ++ ((encodeSpaces k).data ++
          ("&".data ++ ("location=".data ++ ((encodeSpaces l).data ++
            ("&".data ++ ("f_TPR=r86400".data ++
              ("&".data ++ ("geoId=92000000".data ++ "&".data))))))))),
      [], ?_⟩
    rw [url_shape]
    simp [String.data_append, List.append_assoc]

lemma encChars_no_space (l : List Char) (h : ∀ c ∈ l, c ≠ ' ') : encChars l = l := by
  induction l with
  | nil => rfl
  | cons c cs ih =>
      have hc := h c (List.mem_cons_self _ _)
      simp only [encChars, if_neg hc]
      rw [ih (fun c2 h2 => h c2 (List.mem_cons_of_mem _ h2))]

/-- C10: the only rewriting `construct_search_url` performs on its inputs
is space-to-%20 — a keyword or location without spaces is embedded in the
URL verbatim, whatever characters (&, #, ?, or % itself) it contains — and
the encoding is therefore not injective: the keyword already containing the
literal "%20" collides with the spaced keyword at the same location and
page. -/
theorem url_encoding_verbatim_spec :
    (∀ s : String, (∀ c ∈ s.data, c ≠ ' ') → encodeSpaces s = s) ∧
    (∀ (k l : String) (p : Int), (∀ c ∈ k.data, c ≠ ' ') →
      strContains (construct_search_url k l p) k) ∧
    (construct_search_url "Data%20Engineer" "United States" 3 =
        construct_search_url "Data Engineer" "United States" 3 ∧
      "Data%20Engineer" ≠ "Data Engineer") := by
  have henc : ∀ s : String, (∀ c ∈ s.data, c ≠ ' ') → encodeSpaces s = s := by
    intro s h
    obtain ⟨d⟩ := s
    exact congrArg String.mk (encChars_no_space d h)
  refine ⟨henc, ?_, by decide, by decide⟩
  intro k l p hk
  show k.data <:+: (construct_search_url k l p).data
  refine ⟨"https://www.linkedin.com/jobs/search/?".data ++ "keywords=".data,
    "&".data ++ ("location=".data ++ ((encodeSpaces l).data ++
      ("&".data ++ ("f_TPR=r86400".data ++
        ("&".data ++ ("geoId=92000000".data ++
          ("&".data ++ ("start=".data ++ (toString ((p - 1) * 25)).data)))))))), ?_⟩
  rw [url_shape, henc k hk]
  simp [List.append_assoc]

/-- C10 witness: pass-through of a keyword full of URL metacharacters, and
its verbatim occurrence in a constructed URL. -/
theorem url_encoding_verbatim_instance :
    encodeSpaces "a&b#c?%x" = "a&b#c?%x" ∧
    strContains (construct_search_url "C++&Rust" "Canada" 1) "C++&Rust" :=
  ⟨url_encoding_verbatim_spec.1 "a&b#c?%x" (by decide),
    url_encoding_verbatim_spec.2.1 "C++&Rust" "Canada" 1 (by decide)⟩

end LinkedinCrawler
